import Mathlib

/-!
Shallow embedding of the Printeez order workflow.

Source files embedded here:
- `src/routes/order.js` — `router.post("/")` (placeOrder), `router.put("/:id/status")`
  (updateStatus);
- `src/models/Order.js` — `orderSchema` (persisted order shape: a line item keeps only
  `productId` and `quantity`; mongoose strict mode, the default, discards any other key
  passed to the constructor);
- the Product model (`productSchema` with a `sizes` array of `{size, stock}` entries and
  a `salesCount` counter);
- `src/services/emailService.js` — `sendOrderConfirmation`, which wraps its whole body in
  try/catch and returns `true`/`false`, never throwing.

Modelling choices:
- product ids, user ids and order ids are `Nat`;
- JS numbers used as money amounts, stock counts and quantities are `Int` (the schema
  declares `min: 0` for price/stock/salesCount, but `$inc` updates bypass validators, so
  the state type must allow negative values);
- the catalog (the Product collection) is a function `Nat → Option Product`;
- the Order collection is a list of persisted order documents;
- mongoose semantics encoded: `findOneAndUpdate` with a `"sizes.size"` filter updates the
  first matching array entry via the positional `$` operator and is a no-op when the
  filter matches no document; `findByIdAndUpdate` runs no schema validators (update
  validators are off by default), so the `status` enum is not checked on that path;
  `required: true` on the `address` string rejects the empty string at `save()`;
- the email transporter's outcome is a boolean parameter `notifierOk`; the user's email
  (looked up via `User.findById`) is an `Option String` parameter;
- the handler's observable sequencing (save, stock update, notifier call, HTTP response)
  is recorded as an event list.
-/

/-- Entry of `productSchema.sizes`: a `{ size, stock }` pair. -/
structure SizeEntry where
  size : String
  stock : Int
  deriving Repr, DecidableEq

/-- Product document (the fields the order workflow reads or writes). -/
structure Product where
  name : String
  price : Int
  sizes : List SizeEntry
  salesCount : Int
  deriving Repr, DecidableEq

/-- The Product collection, keyed by product id. -/
def Catalog : Type := Nat → Option Product

/-- One requested line item of the `POST /orders` body: `{ productId, size, quantity }`. -/
structure OrderItemReq where
  productId : Nat
  size : String
  quantity : Int
  deriving Repr, DecidableEq

/-- In-memory element pushed onto `orderProducts` in the handler:
`{ productId, productName, size, quantity, price }`. -/
structure OrderProduct where
  productId : Nat
  productName : String
  size : String
  quantity : Int
  price : Int
  deriving Repr, DecidableEq

/-- Persisted line item. `orderSchema.products` (src/models/Order.js) declares only
`productId` and `quantity`; mongoose strict mode (the default) drops every other key of
the object passed to the `Order` constructor, so `productName`, `price` and `size` are
`none` in the stored document. -/
structure OrderLine where
  productId : Nat
  quantity : Int
  productName : Option String
  price : Option Int
  size : Option String
  deriving Repr, DecidableEq

/-- Casting an `orderProducts` element through `orderSchema`: only the declared paths
`productId` and `quantity` survive. -/
def orderSchemaCast (p : OrderProduct) : OrderLine :=
  { productId := p.productId
    quantity := p.quantity
    productName := none
    price := none
    size := none }

/-- Persisted order document (src/models/Order.js). -/
structure OrderDoc where
  oid : Nat
  userId : Nat
  products : List OrderLine
  totalAmount : Int
  address : String
  status : String
  paymentMethod : String
  deriving Repr, DecidableEq

/-- Errors the order routes can answer with (each is a distinct 400/404 message in the
source). `orderCreationFailed` is the catch-all 400 of the `catch` block. -/
inductive OrderError where
  | productNotFound (pid : Nat)
  | sizeUnavailable (size : String) (productName : String)
  | insufficientStock (productName : String) (size : String) (available : Int)
  | orderCreationFailed
  | orderNotFound
  deriving Repr, DecidableEq

/-- The three validation errors of the availability loop (product missing, size missing,
stock too low), as opposed to the catch-all. -/
def OrderError.isValidationError : OrderError → Bool
  | .productNotFound _ => true
  | .sizeUnavailable _ _ => true
  | .insufficientStock _ _ _ => true
  | .orderCreationFailed => false
  | .orderNotFound => false

/-- Observable events of one handler execution, in program order. -/
inductive Event where
  | orderSaved
  | stockUpdated
  | notifierInvoked (ok : Bool)
  | responseSent (ok : Bool)
  deriving Repr, DecidableEq

/-- Database state touched by the order workflow. -/
structure St where
  catalog : Catalog
  orders : List OrderDoc

/-- Translation of `product.sizes.find((s) => s.size === item.size)`. -/
def findSize : List SizeEntry → String → Option SizeEntry
  | [], _ => none
  | e :: es, s => if e.size = s then some e else findSize es s

/-- Validation loop of `router.post("/")` (src/routes/order.js lines 75–107), with the
`totalAmount` and `orderProducts` accumulators made explicit. Items are processed in list
order; the first failing check aborts the whole request. -/
def validateLoop (c : Catalog) :
    List OrderItemReq → Int → List OrderProduct → Except OrderError (Int × List OrderProduct)
  | [], totalAmount, orderProducts => .ok (totalAmount, orderProducts)
  | item :: rest, totalAmount, orderProducts =>
    match c item.productId with
    | none => .error (.productNotFound item.productId)
    | some product =>
      match findSize product.sizes item.size with
      | none => .error (.sizeUnavailable item.size product.name)
      | some sizeData =>
        if sizeData.stock < item.quantity then
          .error (.insufficientStock product.name item.size sizeData.stock)
        else
          validateLoop c rest (totalAmount + product.price * item.quantity)
            (orderProducts ++ [{ productId := item.productId
                                 productName := product.name
                                 size := item.size
                                 quantity := item.quantity
                                 price := product.price }])

/-- Entry point of the validation loop: accumulators start at `0` and `[]`. -/
def validateItems (c : Catalog) (products : List OrderItemReq) :
    Except OrderError (Int × List OrderProduct) :=
  validateLoop c products 0 []

/-- Decrement the `stock` of the first entry whose `size` matches (mongoose positional
`$` operator in `"sizes.$.stock"`). -/
def decFirst : List SizeEntry → String → Int → List SizeEntry
  | [], _, _ => []
  | e :: es, s, q =>
    if e.size = s then { e with stock := e.stock - q } :: es
    else e :: decFirst es s q

/-- One iteration of the stock-update loop:
`Product.findOneAndUpdate({_id, "sizes.size": size}, {$inc: {"sizes.$.stock": -q, salesCount: q}})`.
When no document matches the filter (missing product, or product without that size) the
update is a no-op. -/
def applyDecrement (c : Catalog) (item : OrderItemReq) : Catalog :=
  match c item.productId with
  | none => c
  | some p =>
    if (findSize p.sizes item.size).isSome then
      fun pid =>
        if pid = item.productId then
          some { p with
                 sizes := decFirst p.sizes item.size item.quantity
                 salesCount := p.salesCount + item.quantity }
        else c pid
    else c

/-- The whole stock-update loop (src/routes/order.js lines 127–141), iterating over the
request items in order. -/
def applyDecrements (c : Catalog) (products : List OrderItemReq) : Catalog :=
  products.foldl applyDecrement c

/-- Result of one `POST /orders` handler execution. -/
structure PlaceOrderResult where
  response : Except OrderError OrderDoc
  st : St
  events : List Event

/-- Translation of `router.post("/")` (src/routes/order.js lines 68–165). Validation runs
first and performs no writes; on success the order document is constructed (snapshot
fields are stripped by `orderSchema`), saved, stock is decremented unconditionally via
`$inc`, the confirmation email is awaited (when the user has an email), and only then the
201 response is produced. `mongoose` rejects `save()` when `address` is the empty string
(`required` fails on falsy strings), which the `catch` block maps to the generic 400. -/
def placeOrder (st : St) (userId : Nat) (products : List OrderItemReq) (address : String)
    (userEmail : Option String) (notifierOk : Bool) : PlaceOrderResult :=
  match validateItems st.catalog products with
  | .error e => { response := .error e, st := st, events := [.responseSent false] }
  | .ok (totalAmount, orderProducts) =>
    if address = "" then
      { response := .error .orderCreationFailed, st := st, events := [.responseSent false] }
    else
      let doc : OrderDoc :=
        { oid := st.orders.length
          userId := userId
          products := orderProducts.map orderSchemaCast
          totalAmount := totalAmount
          address := address
          status := "Pending"
          paymentMethod := "COD" }
      let catalog2 := applyDecrements st.catalog products
      { response := .ok doc
        st := { catalog := catalog2, orders := st.orders ++ [doc] }
        events := [Event.orderSaved, Event.stockUpdated] ++
          (match userEmail with
           | some _ => [Event.notifierInvoked notifierOk]
           | none => []) ++
          [Event.responseSent true] }

/-- Translation of `Order.findByIdAndUpdate(req.params.id, { status }, { new: true })`:
replace the status of the first (unique) order with that id and return the updated
document; no update validator runs, so any status string is accepted. -/
def findByIdAndUpdateStatus :
    List OrderDoc → Nat → String → Option OrderDoc × List OrderDoc
  | [], _, _ => (none, [])
  | o :: os, oid, status =>
    if o.oid = oid then
      ((some { o with status := status }), { o with status := status } :: os)
    else
      let r := findByIdAndUpdateStatus os oid status
      (r.1, o :: r.2)

/-- Translation of `router.put("/:id/status")` (src/routes/order.js lines 306–319):
404 when the id resolves to no order, otherwise 200 with the updated document. -/
def updateStatus (orders : List OrderDoc) (oid : Nat) (status : String) :
    Except OrderError OrderDoc × List OrderDoc :=
  match findByIdAndUpdateStatus orders oid status with
  | (none, os) => (.error .orderNotFound, os)
  | (some o, os) => (.ok o, os)

/-- Stock count of a (product, size) pair as the availability check reads it. -/
def stockOf (c : Catalog) (pid : Nat) (s : String) : Option Int :=
  match c pid with
  | none => none
  | some p => (findSize p.sizes s).map fun e => e.stock

/-- Sales counter of a product. -/
def salesCountOf (c : Catalog) (pid : Nat) : Option Int :=
  (c pid).map fun p => p.salesCount

/-- Name of a product. -/
def nameOf (c : Catalog) (pid : Nat) : Option String :=
  (c pid).map fun p => p.name

/-- Price of a product. -/
def priceOf (c : Catalog) (pid : Nat) : Option Int :=
  (c pid).map fun p => p.price

/-- Size labels of a product, in array order. -/
def sizeNamesOf (c : Catalog) (pid : Nat) : Option (List String) :=
  (c pid).map fun p => p.sizes.map SizeEntry.size

/-- Total quantity requested for one (product, size) pair across all line items of a
request. -/
def qtyFor (products : List OrderItemReq) (pid : Nat) (s : String) : Int :=
  ((products.filter fun it => it.productId = pid ∧ it.size = s).map
    OrderItemReq.quantity).sum

/-- Total quantity requested for one product across all line items of a request. -/
def qtyForProduct (products : List OrderItemReq) (pid : Nat) : Int :=
  ((products.filter fun it => it.productId = pid).map OrderItemReq.quantity).sum

/-- Sum, over the line items, of catalog unit price at call time multiplied by requested
quantity (0 for an unresolvable product id; under a successful call every id resolves). -/
def itemsTotal (c : Catalog) (products : List OrderItemReq) : Int :=
  (products.map fun it =>
    match c it.productId with
    | none => 0
    | some p => p.price * it.quantity).sum

/-- Item-level availability check exactly as one iteration of the validation loop
performs it, reporting the error it would raise. -/
def checkItem (c : Catalog) (it : OrderItemReq) : Option OrderError :=
  match c it.productId with
  | none => some (.productNotFound it.productId)
  | some p =>
    match findSize p.sizes it.size with
    | none => some (.sizeUnavailable it.size p.name)
    | some sd =>
      if sd.stock < it.quantity then some (.insufficientStock p.name it.size sd.stock)
      else none

/-- Specification-side reading of the error contract: the error of the first offending
line item in request order, `none` when every item passes all three checks. -/
def firstCheckErrorSpec (c : Catalog) : List OrderItemReq → Option OrderError
  | [] => none
  | it :: rest =>
    match checkItem c it with
    | some e => some e
    | none => firstCheckErrorSpec c rest

-- helper lemmas scratch

/-- Availability of one requested line item: its product id resolves and the requested
size exists on the product. -/
def itemOk (c : Catalog) (it : OrderItemReq) : Prop :=
  ∃ p, c it.productId = some p ∧ (findSize p.sizes it.size).isSome = true

deriving instance DecidableEq for Except

/-- Demo catalog state: product 1 is a "Tee" priced 100 with stock 3 in "Small" and 5 in
"Large", and 10 past sales. -/

def tee2 : Product :=
  { name := "Tee", price := 100, sizes := [⟨"Small", 3⟩, ⟨"Large", 5⟩], salesCount := 10 }

/-- Demo catalog function. -/
def demoCatalog : Catalog := fun pid => if pid = 1 then some tee2 else none

/-- Demo database state with an empty Order collection. -/
def demoSt : St := { catalog := demoCatalog, orders := [] }

/-- Demo product with a single unit of stock left in "Small". -/
def teeLastOne : Product :=
  { name := "Tee", price := 100, sizes := [⟨"Small", 1⟩], salesCount := 0 }

/-- Catalog holding only `teeLastOne` as product 1. -/
def raceCatalog : Catalog := fun pid => if pid = 1 then some teeLastOne else none

/-- Database state for the low-stock scenarios. -/
def raceSt : St := { catalog := raceCatalog, orders := [] }

/-- The order document produced by ordering 2 "Small" units of product 1 from `demoSt`. -/
def docC2 : OrderDoc :=
  { oid := 0, userId := 7,
    products := [{ productId := 1, quantity := 2, productName := none, price := none,
                   size := none }],
    totalAmount := 200, address := "addr", status := "Pending", paymentMethod := "COD" }

/-- A persisted order with status "Pending" and order id 0. -/
def pendingOrder : OrderDoc :=
  { oid := 0, userId := 7,
    products := [{ productId := 1, quantity := 2, productName := none, price := none,
                   size := none }],
    totalAmount := 200, address := "addr", status := "Pending", paymentMethod := "COD" }

theorem validateLoop_ok_total (c : Catalog) (items : List OrderItemReq) :
    ∀ t acc T L, validateLoop c items t acc = .ok (T, L) → T = t + itemsTotal c items := by
  induction items with
  | nil =>
    intro t acc T L h
    simp [validateLoop] at h
    simp [itemsTotal, h.1.symm]
  | cons item rest ih =>
    intro t acc T L h
    rw [validateLoop] at h
    split at h
    · simp at h
    next p hp =>
      split at h
      · simp at h
      next sd hs =>
        split at h
        · simp at h
        next hlt =>
          rw [ih _ _ _ _ h]
          have hit : itemsTotal c (item :: rest) = p.price * item.quantity + itemsTotal c rest := by
            simp [itemsTotal, hp]
          rw [hit]; ring

theorem validateLoop_ok_valid (c : Catalog) (items : List OrderItemReq) :
    ∀ t acc T L, validateLoop c items t acc = .ok (T, L) →
      ∀ it ∈ items, itemOk c it := by
  induction items with
  | nil => intro t acc T L _ it hit; simp at hit
  | cons item rest ih =>
    intro t acc T L h it hit
    rw [validateLoop] at h
    split at h
    · simp at h
    next p hp =>
      split at h
      · simp at h
      next sd hs =>
        split at h
        · simp at h
        next hlt =>
          rcases List.mem_cons.mp hit with rfl | hmem
          · exact ⟨p, hp, by rw [hs]; rfl⟩
          · exact ih _ _ _ _ h it hmem

theorem placeOrder_ok_elim {st : St} {u : Nat} {ps : List OrderItemReq} {addr : String}
    {email : Option String} {nok : Bool} {doc : OrderDoc}
    (h : (placeOrder st u ps addr email nok).response = .ok doc) :
    ∃ T L, validateItems st.catalog ps = .ok (T, L) ∧ ¬ addr = "" ∧
      doc = { oid := st.orders.length, userId := u, products := L.map orderSchemaCast,
              totalAmount := T, address := addr, status := "Pending",
              paymentMethod := "COD" } ∧
      (placeOrder st u ps addr email nok).st =
        { catalog := applyDecrements st.catalog ps, orders := st.orders ++ [doc] } := by
  unfold placeOrder at h ⊢
  split at h
  · simp at h
  next T L hv =>
    split at h
    · simp at h
    next ha =>
      simp at h
      refine ⟨T, L, hv, ha, h.symm, ?_⟩
      simp [ha, h]

theorem findSize_decFirst_same (l : List SizeEntry) (s : String) (q : Int) :
    findSize (decFirst l s q) s =
      (findSize l s).map fun e => { e with stock := e.stock - q } := by
  induction l with
  | nil => simp [decFirst, findSize]
  | cons e es ih =>
    by_cases h : e.size = s
    · simp [decFirst, findSize, h]
    · simp [decFirst, findSize, h, ih]

theorem findSize_decFirst_other (l : List SizeEntry) (s s' : String) (q : Int)
    (hss : ¬ s' = s) :
    findSize (decFirst l s q) s' = findSize l s' := by
  induction l with
  | nil => simp [decFirst]
  | cons e es ih =>
    by_cases h : e.size = s
    · have h2 : ¬ e.size = s' := by rw [h]; exact fun hh => hss hh.symm
      have h3 : ¬ s = s' := fun hh => hss hh.symm
      simp [decFirst, findSize, h, h2, h3]
    · by_cases h2 : e.size = s'
      · simp [decFirst, findSize, h, h2, hss]
      · simp [decFirst, findSize, h, h2, hss, ih]

theorem decFirst_map_size (l : List SizeEntry) (s : String) (q : Int) :
    (decFirst l s q).map SizeEntry.size = l.map SizeEntry.size := by
  induction l with
  | nil => simp [decFirst]
  | cons e es ih =>
    by_cases h : e.size = s
    · simp [decFirst, h]
    · simp [decFirst, h, ih]

theorem stockOf_applyDecrement_other (c : Catalog) (it : OrderItemReq) (pid : Nat)
    (s : String) (hne : ¬ (it.productId = pid ∧ it.size = s)) :
    stockOf (applyDecrement c it) pid s = stockOf c pid s := by
  unfold applyDecrement
  split
  · rfl
  next p hp =>
    split
    · by_cases hpid : pid = it.productId
      · subst hpid
        have hs : ¬ s = it.size := fun hh => hne ⟨rfl, hh.symm⟩
        simp [stockOf, hp, findSize_decFirst_other _ _ _ _ hs]
      · simp [stockOf, hpid]
    · rfl

theorem stockOf_applyDecrement_hit (c : Catalog) (it : OrderItemReq)
    (hok : (stockOf c it.productId it.size).isSome = true) :
    stockOf (applyDecrement c it) it.productId it.size =
      (stockOf c it.productId it.size).map fun v => v - it.quantity := by
  unfold applyDecrement
  split
  next hp => simp [stockOf, hp] at hok
  next p hp =>
    split
    next hfs =>
      simp [stockOf, hp, findSize_decFirst_same]
      cases hv : findSize p.sizes it.size with
      | none => simp [hv] at hfs
      | some sd => simp [hv]
    next hfs =>
      simp [stockOf, hp] at hok
      simp [Option.isSome_map] at hfs
      exact absurd hok (by simp [hfs])

theorem salesCountOf_applyDecrement_other (c : Catalog) (it : OrderItemReq) (pid : Nat)
    (hne : ¬ it.productId = pid) :
    salesCountOf (applyDecrement c it) pid = salesCountOf c pid := by
  unfold applyDecrement
  split
  · rfl
  next p hp =>
    split
    · have : ¬ pid = it.productId := fun hh => hne hh.symm
      simp [salesCountOf, this]
    · rfl

theorem salesCountOf_applyDecrement_hit (c : Catalog) (it : OrderItemReq)
    (hok : (stockOf c it.productId it.size).isSome = true) :
    salesCountOf (applyDecrement c it) it.productId =
      (salesCountOf c it.productId).map fun v => v + it.quantity := by
  unfold applyDecrement
  split
  next hp => simp [stockOf, hp] at hok
  next p hp =>
    split
    next hfs => simp [salesCountOf, hp]
    next hfs => simp [stockOf, hp, Option.isSome_map] at hok hfs; exact absurd hok (by simp [hfs])

theorem nameOf_applyDecrement (c : Catalog) (it : OrderItemReq) (pid : Nat) :
    nameOf (applyDecrement c it) pid = nameOf c pid := by
  unfold applyDecrement
  split
  · rfl
  next p hp =>
    split
    · by_cases hpid : pid = it.productId
      · subst hpid; simp [nameOf, hp]
      · simp [nameOf, hpid]
    · rfl

theorem priceOf_applyDecrement (c : Catalog) (it : OrderItemReq) (pid : Nat) :
    priceOf (applyDecrement c it) pid = priceOf c pid := by
  unfold applyDecrement
  split
  · rfl
  next p hp =>
    split
    · by_cases hpid : pid = it.productId
      · subst hpid; simp [priceOf, hp]
      · simp [priceOf, hpid]
    · rfl

theorem sizeNamesOf_applyDecrement (c : Catalog) (it : OrderItemReq) (pid : Nat) :
    sizeNamesOf (applyDecrement c it) pid = sizeNamesOf c pid := by
  unfold applyDecrement
  split
  · rfl
  next p hp =>
    split
    · by_cases hpid : pid = it.productId
      · subst hpid; simp [sizeNamesOf, hp, decFirst_map_size]
      · simp [sizeNamesOf, hpid]
    · rfl

theorem isSome_applyDecrement (c : Catalog) (it : OrderItemReq) (pid : Nat) :
    ((applyDecrement c it) pid).isSome = (c pid).isSome := by
  have h := nameOf_applyDecrement c it pid
  simp only [nameOf] at h
  have h2 := congrArg Option.isSome h
  simpa [Option.isSome_map] using h2

theorem stockOf_isSome_applyDecrement (c : Catalog) (it : OrderItemReq) (pid : Nat)
    (s : String) :
    (stockOf (applyDecrement c it) pid s).isSome = (stockOf c pid s).isSome := by
  by_cases hne : it.productId = pid ∧ it.size = s
  · obtain ⟨h1, h2⟩ := hne
    subst h1; subst h2
    by_cases hok : (stockOf c it.productId it.size).isSome = true
    · rw [stockOf_applyDecrement_hit c it hok]
      simp [Option.isSome_map]
    · unfold applyDecrement
      split
      · rfl
      next p hp =>
        split
        next hfs => simp [stockOf, hp, Option.isSome_map] at hok; exact absurd hfs (by simp [hok])
        next hfs => rfl
  · rw [stockOf_applyDecrement_other c it pid s hne]

theorem qtyFor_cons (it : OrderItemReq) (rest : List OrderItemReq) (pid : Nat) (s : String) :
    qtyFor (it :: rest) pid s =
      (if it.productId = pid ∧ it.size = s then it.quantity else 0) + qtyFor rest pid s := by
  by_cases h : it.productId = pid ∧ it.size = s
  · simp [qtyFor, List.filter_cons, h]
  · simp [qtyFor, List.filter_cons, h]

theorem qtyForProduct_cons (it : OrderItemReq) (rest : List OrderItemReq) (pid : Nat) :
    qtyForProduct (it :: rest) pid =
      (if it.productId = pid then it.quantity else 0) + qtyForProduct rest pid := by
  by_cases h : it.productId = pid
  · simp [qtyForProduct, List.filter_cons, h]
  · simp [qtyForProduct, List.filter_cons, h]

theorem stockOf_applyDecrements (items : List OrderItemReq) :
    ∀ c : Catalog, (∀ it ∈ items, (stockOf c it.productId it.size).isSome = true) →
      ∀ pid s, stockOf (applyDecrements c items) pid s =
        (stockOf c pid s).map fun v => v - qtyFor items pid s := by
  induction items with
  | nil =>
    intro c _ pid s
    simp only [applyDecrements, List.foldl_nil, qtyFor, List.filter_nil, List.map_nil,
      List.sum_nil]
    cases stockOf c pid s <;> simp
  | cons it rest ih =>
    intro c hall pid s
    have hok : (stockOf c it.productId it.size).isSome = true := hall it (by simp)
    have hall' : ∀ j ∈ rest, (stockOf (applyDecrement c it) j.productId j.size).isSome = true := by
      intro j hj
      rw [stockOf_isSome_applyDecrement]
      exact hall j (by simp [hj])
    have hfold : applyDecrements c (it :: rest) = applyDecrements (applyDecrement c it) rest := by
      simp [applyDecrements, List.foldl_cons]
    rw [hfold, ih _ hall' pid s, qtyFor_cons]
    by_cases hcase : it.productId = pid ∧ it.size = s
    · obtain ⟨h1, h2⟩ := hcase
      subst h1; subst h2
      rw [stockOf_applyDecrement_hit c it hok]
      have hc : it.productId = it.productId ∧ it.size = it.size := ⟨rfl, rfl⟩
      rw [if_pos hc, Option.map_map]
      cases stockOf c it.productId it.size with
      | none => simp
      | some v => simp [Function.comp]; ring
    · rw [stockOf_applyDecrement_other c it pid s hcase]
      simp only [if_neg hcase]
      cases stockOf c pid s <;> simp

theorem salesCountOf_applyDecrements (items : List OrderItemReq) :
    ∀ c : Catalog, (∀ it ∈ items, (stockOf c it.productId it.size).isSome = true) →
      ∀ pid, salesCountOf (applyDecrements c items) pid =
        (salesCountOf c pid).map fun v => v + qtyForProduct items pid := by
  induction items with
  | nil =>
    intro c _ pid
    simp only [applyDecrements, List.foldl_nil, qtyForProduct, List.filter_nil, List.map_nil,
      List.sum_nil]
    cases salesCountOf c pid <;> simp
  | cons it rest ih =>
    intro c hall pid
    have hok : (stockOf c it.productId it.size).isSome = true := hall it (by simp)
    have hall' : ∀ j ∈ rest, (stockOf (applyDecrement c it) j.productId j.size).isSome = true := by
      intro j hj
      rw [stockOf_isSome_applyDecrement]
      exact hall j (by simp [hj])
    have hfold : applyDecrements c (it :: rest) = applyDecrements (applyDecrement c it) rest := by
      simp [applyDecrements, List.foldl_cons]
    rw [hfold, ih _ hall' pid, qtyForProduct_cons]
    by_cases hcase : it.productId = pid
    · subst hcase
      rw [salesCountOf_applyDecrement_hit c it hok]
      rw [if_pos rfl, Option.map_map]
      cases salesCountOf c it.productId with
      | none => simp
      | some v => simp [Function.comp]
    · rw [salesCountOf_applyDecrement_other c it pid hcase]
      simp only [if_neg hcase]
      cases salesCountOf c pid <;> simp

theorem nameOf_applyDecrements (items : List OrderItemReq) :
    ∀ c : Catalog, ∀ pid, nameOf (applyDecrements c items) pid = nameOf c pid := by
  induction items with
  | nil => intro c pid; simp [applyDecrements]
  | cons it rest ih =>
    intro c pid
    have hfold : applyDecrements c (it :: rest) = applyDecrements (applyDecrement c it) rest := by
      simp [applyDecrements, List.foldl_cons]
    rw [hfold, ih, nameOf_applyDecrement]

theorem priceOf_applyDecrements (items : List OrderItemReq) :
    ∀ c : Catalog, ∀ pid, priceOf (applyDecrements c items) pid = priceOf c pid := by
  induction items with
  | nil => intro c pid; simp [applyDecrements]
  | cons it rest ih =>
    intro c pid
    have hfold : applyDecrements c (it :: rest) = applyDecrements (applyDecrement c it) rest := by
      simp [applyDecrements, List.foldl_cons]
    rw [hfold, ih, priceOf_applyDecrement]

theorem sizeNamesOf_applyDecrements (items : List OrderItemReq) :
    ∀ c : Catalog, ∀ pid, sizeNamesOf (applyDecrements c items) pid = sizeNamesOf c pid := by
  induction items with
  | nil => intro c pid; simp [applyDecrements]
  | cons it rest ih =>
    intro c pid
    have hfold : applyDecrements c (it :: rest) = applyDecrements (applyDecrement c it) rest := by
      simp [applyDecrements, List.foldl_cons]
    rw [hfold, ih, sizeNamesOf_applyDecrement]

theorem isSome_applyDecrements (items : List OrderItemReq) :
    ∀ c : Catalog, ∀ pid, ((applyDecrements c items) pid).isSome = (c pid).isSome := by
  induction items with
  | nil => intro c pid; simp [applyDecrements]
  | cons it rest ih =>
    intro c pid
    have hfold : applyDecrements c (it :: rest) = applyDecrements (applyDecrement c it) rest := by
      simp [applyDecrements, List.foldl_cons]
    rw [hfold, ih, isSome_applyDecrement]

theorem checkItem_isValidationError (c : Catalog) (it : OrderItemReq) (e : OrderError)
    (h : checkItem c it = some e) : e.isValidationError = true := by
  unfold checkItem at h
  split at h
  · simp at h; simp [← h, OrderError.isValidationError]
  next p hp =>
    split at h
    · simp at h; simp [← h, OrderError.isValidationError]
    next sd hs =>
      split at h
      · simp at h; simp [← h, OrderError.isValidationError]
      · simp at h

theorem validateLoop_error_iff (c : Catalog) (items : List OrderItemReq) :
    ∀ t acc e, validateLoop c items t acc = .error e ↔
      firstCheckErrorSpec c items = some e := by
  induction items with
  | nil => intro t acc e; simp [validateLoop, firstCheckErrorSpec]
  | cons item rest ih =>
    intro t acc e
    rw [validateLoop, firstCheckErrorSpec, checkItem]
    cases hp : c item.productId with
    | none => simp
    | some p =>
      cases hs : findSize p.sizes item.size with
      | none => simp [hs]
      | some sd =>
        simp only [hs]
        by_cases hlt : sd.stock < item.quantity
        · simp [hlt]
        · simp only [if_neg hlt]
          exact ih _ _ e

theorem firstCheckErrorSpec_isValidationError (c : Catalog) (items : List OrderItemReq)
    (e : OrderError) (h : firstCheckErrorSpec c items = some e) :
    e.isValidationError = true := by
  induction items with
  | nil => simp [firstCheckErrorSpec] at h
  | cons item rest ih =>
    rw [firstCheckErrorSpec] at h
    cases hc : checkItem c item with
    | none => rw [hc] at h; exact ih h
    | some e' =>
      rw [hc] at h
      simp at h
      rw [← h]
      exact checkItem_isValidationError c item e' hc

theorem placeOrder_response_error_elim {st : St} {u : Nat} {ps : List OrderItemReq}
    {addr : String} {email : Option String} {nok : Bool} {e : OrderError}
    (h : (placeOrder st u ps addr email nok).response = .error e) :
    (placeOrder st u ps addr email nok).st = st := by
  unfold placeOrder at h ⊢
  split at h
  next e' hv => rfl
  next T L hv =>
    split at h
    next ha => simp [ha]
    next ha => simp at h

theorem validateLoop_error_of_response {st : St} {u : Nat} {ps : List OrderItemReq}
    {addr : String} {email : Option String} {nok : Bool} {e : OrderError}
    (h : (placeOrder st u ps addr email nok).response = .error e)
    (hv : e.isValidationError = true) :
    validateItems st.catalog ps = .error e := by
  unfold placeOrder at h
  split at h
  next e' heq =>
    simp at h
    rw [heq, h]
  next T L heq =>
    split at h
    next ha =>
      simp at h
      rw [← h] at hv
      simp [OrderError.isValidationError] at hv
    next ha => simp at h

theorem response_error_of_validateLoop {st : St} {u : Nat} {ps : List OrderItemReq}
    {addr : String} {email : Option String} {nok : Bool} {e : OrderError}
    (h : validateItems st.catalog ps = .error e) :
    (placeOrder st u ps addr email nok).response = .error e := by
  unfold placeOrder
  split
  next e' heq => rw [h] at heq; simp at heq; simp [heq]
  next T L heq => rw [h] at heq; simp at heq

theorem findByIdAndUpdateStatus_none (orders : List OrderDoc) (oid : Nat) (s : String)
    (h : ∀ o ∈ orders, o.oid ≠ oid) :
    findByIdAndUpdateStatus orders oid s = (none, orders) := by
  induction orders with
  | nil => rfl
  | cons o os ih =>
    rw [findByIdAndUpdateStatus]
    have hne : ¬ o.oid = oid := h o (by simp)
    rw [if_neg hne, ih fun o' ho' => h o' (by simp [ho'])]

theorem findByIdAndUpdateStatus_found (pre : List OrderDoc) (o : OrderDoc)
    (post : List OrderDoc) (oid : Nat) (s : String)
    (hpre : ∀ p ∈ pre, p.oid ≠ oid) (ho : o.oid = oid) :
    findByIdAndUpdateStatus (pre ++ o :: post) oid s =
      (some { o with status := s }, pre ++ { o with status := s } :: post) := by
  induction pre with
  | nil => simp [findByIdAndUpdateStatus, ho]
  | cons p ps ih =>
    have hne : ¬ p.oid = oid := hpre p (by simp)
    simp only [List.cons_append, findByIdAndUpdateStatus, if_neg hne, List.append_eq]
    rw [ih fun p' hp' => hpre p' (by simp [hp'])]

/-- C1: the spec invariant that a stock-count never goes negative fails on the code. A
single order whose line-item list names the same product and size twice (stock 3, two
items of quantity 2 each) passes validation, because each availability check re-reads the
still-undecremented stock; the call succeeds with a 201 response (totalAmount 400), and
the two unconditional decrements drive the stock of (product 1, "Small") to -1. -/
theorem placeOrder_duplicate_items_stock_goes_negative :
    ((placeOrder demoSt 7 [⟨1, "Small", 2⟩, ⟨1, "Small", 2⟩] "addr" none true).response.map
        fun d => d.totalAmount) = .ok 400 ∧
    stockOf (placeOrder demoSt 7 [⟨1, "Small", 2⟩, ⟨1, "Small", 2⟩] "addr" none
        true).st.catalog 1 "Small" = some (-1) := by decide

/-- C2: for every successful placeOrder call, the totalAmount of the returned and
persisted order equals exactly the sum, over the requested line items, of the catalog
unit price at order-creation time multiplied by the requested quantity. -/
theorem placeOrder_totalAmount_correct (st : St) (u : Nat) (ps : List OrderItemReq)
    (addr : String) (email : Option String) (nok : Bool) (doc : OrderDoc)
    (h : (placeOrder st u ps addr email nok).response = .ok doc) :
    doc.totalAmount = itemsTotal st.catalog ps ∧
    (placeOrder st u ps addr email nok).st.orders = st.orders ++ [doc] := by
  obtain ⟨T, L, hv, ha, hdoc, hst⟩ := placeOrder_ok_elim h
  subst hdoc
  refine ⟨?_, by rw [hst]⟩
  have hT := validateLoop_ok_total st.catalog ps 0 [] T L hv
  show T = itemsTotal st.catalog ps
  omega

theorem placeOrder_totalAmount_correct_witness :
    docC2.totalAmount = itemsTotal demoSt.catalog [⟨1, "Small", 2⟩] ∧
    (placeOrder demoSt 7 [⟨1, "Small", 2⟩] "addr" none true).st.orders =
      demoSt.orders ++ [docC2] :=
  placeOrder_totalAmount_correct demoSt 7 [⟨1, "Small", 2⟩] "addr" none true docC2 (by decide)

/-- C3: whenever placeOrder fails with ProductNotFound, SizeUnavailable or
InsufficientStock, the call has no effect at all: no order document is persisted, every
(product, size) stock count is unchanged and every sales counter is unchanged. -/
theorem placeOrder_validation_failure_all_or_nothing (st : St) (u : Nat)
    (ps : List OrderItemReq) (addr : String) (email : Option String) (nok : Bool)
    (e : OrderError)
    (h : (placeOrder st u ps addr email nok).response = .error e)
    (_he : e.isValidationError = true) :
    (placeOrder st u ps addr email nok).st.orders = st.orders ∧
    (∀ pid s, stockOf (placeOrder st u ps addr email nok).st.catalog pid s =
      stockOf st.catalog pid s) ∧
    (∀ pid, salesCountOf (placeOrder st u ps addr email nok).st.catalog pid =
      salesCountOf st.catalog pid) := by
  have hst := placeOrder_response_error_elim h
  rw [hst]
  exact ⟨rfl, fun _ _ => rfl, fun _ => rfl⟩

theorem placeOrder_validation_failure_all_or_nothing_witness :
    (placeOrder demoSt 7 [⟨99, "Small", 1⟩] "addr" none true).st.orders = demoSt.orders ∧
    stockOf (placeOrder demoSt 7 [⟨99, "Small", 1⟩] "addr" none true).st.catalog 1 "Small" =
      stockOf demoSt.catalog 1 "Small" := by
  have h := placeOrder_validation_failure_all_or_nothing demoSt 7 [⟨99, "Small", 1⟩]
    "addr" none true (.productNotFound 99) (by decide) (by decide)
  exact ⟨h.1, h.2.1 1 "Small"⟩

/-- C4: the at-most-one-succeeds property fails on the code. The availability check
only reads, and the later decrement is an unconditional $inc; every await in the handler
is a yield point of the Node event loop, so two concurrent calls can interleave as
check-A, check-B, commit-A, commit-B. Starting from stock 1 with both calls requesting
quantity 1, both validations pass against the same snapshot (first conjunct), so both
handlers go on to persist their orders and answer 201, and after both decrement loops the
stock of (product 1, "Small") is -1. -/
theorem placeOrder_concurrent_oversell :
    validateItems raceSt.catalog [⟨1, "Small", 1⟩] = .ok (100, [⟨1, "Tee", "Small", 1, 100⟩]) ∧
    stockOf (applyDecrements (applyDecrements raceSt.catalog [⟨1, "Small", 1⟩])
      [⟨1, "Small", 1⟩]) 1 "Small" = some (-1) := by decide

/-- C5: the snapshot claim fails on the code. The route builds productName/price/size
snapshot objects, but orderSchema (src/models/Order.js) declares only productId and
quantity for a line item, so mongoose strict mode silently drops the snapshot fields: at
creation time the catalog held name "Tee" and price 100 for product 1 (first two
conjuncts), yet the persisted and returned order stores none of name, price or size. -/
theorem placeOrder_snapshot_not_persisted :
    priceOf demoSt.catalog 1 = some 100 ∧
    nameOf demoSt.catalog 1 = some "Tee" ∧
    (placeOrder demoSt 7 [⟨1, "Small", 2⟩] "addr" none true).response =
      .ok { oid := 0, userId := 7,
            products := [{ productId := 1, quantity := 2, productName := none,
                           price := none, size := none }],
            totalAmount := 200, address := "addr", status := "Pending",
            paymentMethod := "COD" } := by decide

/-- C6: for every successful placeOrder call, each (product, size) stock count
decreases by exactly the total quantity ordered for that pair, each product's sales
counter increases by exactly the total quantity ordered for that product (both totals are
0 for untouched products and sizes, which are therefore unchanged), and no product's
name, price, size-label list or existence changes. -/
theorem placeOrder_stock_sales_frame (st : St) (u : Nat) (ps : List OrderItemReq)
    (addr : String) (email : Option String) (nok : Bool) (doc : OrderDoc)
    (h : (placeOrder st u ps addr email nok).response = .ok doc) :
    (∀ pid s, stockOf (placeOrder st u ps addr email nok).st.catalog pid s =
      (stockOf st.catalog pid s).map fun v => v - qtyFor ps pid s) ∧
    (∀ pid, salesCountOf (placeOrder st u ps addr email nok).st.catalog pid =
      (salesCountOf st.catalog pid).map fun v => v + qtyForProduct ps pid) ∧
    (∀ pid, nameOf (placeOrder st u ps addr email nok).st.catalog pid = nameOf st.catalog pid) ∧
    (∀ pid, priceOf (placeOrder st u ps addr email nok).st.catalog pid = priceOf st.catalog pid) ∧
    (∀ pid, sizeNamesOf (placeOrder st u ps addr email nok).st.catalog pid =
      sizeNamesOf st.catalog pid) ∧
    (∀ pid, ((placeOrder st u ps addr email nok).st.catalog pid).isSome =
      (st.catalog pid).isSome) := by
  obtain ⟨T, L, hv, ha, hdoc, hst⟩ := placeOrder_ok_elim h
  have hcat : (placeOrder st u ps addr email nok).st.catalog =
      applyDecrements st.catalog ps := by rw [hst]
  have hall : ∀ it ∈ ps, (stockOf st.catalog it.productId it.size).isSome = true := by
    intro it hit
    obtain ⟨p, hp, hs⟩ := validateLoop_ok_valid st.catalog ps 0 [] T L hv it hit
    simp [stockOf, hp, Option.isSome_map, hs]
  rw [hcat]
  exact ⟨stockOf_applyDecrements ps st.catalog hall,
         salesCountOf_applyDecrements ps st.catalog hall,
         nameOf_applyDecrements ps st.catalog,
         priceOf_applyDecrements ps st.catalog,
         sizeNamesOf_applyDecrements ps st.catalog,
         isSome_applyDecrements ps st.catalog⟩

theorem placeOrder_stock_sales_frame_witness :
    stockOf (placeOrder demoSt 7 [⟨1, "Small", 2⟩] "addr" none true).st.catalog 1 "Small" =
      (stockOf demoSt.catalog 1 "Small").map (fun v => v - qtyFor [⟨1, "Small", 2⟩] 1 "Small") ∧
    salesCountOf (placeOrder demoSt 7 [⟨1, "Small", 2⟩] "addr" none true).st.catalog 1 =
      (salesCountOf demoSt.catalog 1).map (fun v => v + qtyForProduct [⟨1, "Small", 2⟩] 1) ∧
    nameOf (placeOrder demoSt 7 [⟨1, "Small", 2⟩] "addr" none true).st.catalog 2 =
      nameOf demoSt.catalog 2 := by
  have h := placeOrder_stock_sales_frame demoSt 7 [⟨1, "Small", 2⟩] "addr" none true docC2
    (by decide)
  exact ⟨h.1 1 "Small", h.2.1 1, h.2.2.1 2⟩

/-- C7 counterexample: the claim's per-error conditionals do not hold independently. In
a request whose first item has insufficient stock and whose second item names a product
id (99) that resolves to no product, the call fails with InsufficientStock, not with
ProductNotFound, although a line item's product id does not resolve. -/
theorem placeOrder_first_error_shadows_product_not_found :
    raceSt.catalog 99 = none ∧
    (placeOrder raceSt 7 [⟨1, "Small", 2⟩, ⟨99, "Small", 1⟩] "addr" none true).response =
      .error (.insufficientStock "Tee" "Small" 1) := by decide

/-- C7 amended: placeOrder fails with a validation error e iff e is the error of the
first offending line item in request order, checking each item's product existence, then
size existence, then stock sufficiency; hence each of the three errors is raised only
under its respective condition, and none is raised when every line item passes all three
checks. -/
theorem placeOrder_error_first_check_characterization (st : St) (u : Nat)
    (ps : List OrderItemReq) (addr : String) (email : Option String) (nok : Bool)
    (e : OrderError) :
    ((placeOrder st u ps addr email nok).response = .error e ∧ e.isValidationError = true) ↔
      firstCheckErrorSpec st.catalog ps = some e := by
  constructor
  · rintro ⟨h, he⟩
    exact (validateLoop_error_iff st.catalog ps 0 [] e).mp (validateLoop_error_of_response h he)
  · intro h
    have hv : validateItems st.catalog ps = .error e :=
      (validateLoop_error_iff st.catalog ps 0 [] e).mpr h
    exact ⟨response_error_of_validateLoop hv,
           firstCheckErrorSpec_isValidationError st.catalog ps e h⟩

theorem placeOrder_error_first_check_characterization_witness :
    (placeOrder raceSt 7 [⟨99, "Small", 1⟩] "addr" none true).response =
      .error (.productNotFound 99) ∧
    OrderError.isValidationError (.productNotFound 99) = true :=
  (placeOrder_error_first_check_characterization raceSt 7 [⟨99, "Small", 1⟩] "addr" none
    true (.productNotFound 99)).mpr (by decide)

/-- C8 counterexample: updateStatus performs no status validation at all:
findByIdAndUpdate runs no update validators, so a status outside the allowed set is
accepted and persisted (success with status "Bogus"), never rejected with InvalidStatus.
(The schema enum is moreover three-valued - Pending, Shipped, Delivered - and does not
contain Cancelled.) -/
theorem updateStatus_accepts_invalid_status :
    (updateStatus [pendingOrder] 0 "Bogus").1 =
      .ok { pendingOrder with status := "Bogus" } ∧
    "Bogus" ∉ (["Pending", "Shipped", "Delivered", "Cancelled"] : List String) := by decide

/-- C8 amended: updateStatus fails with OrderNotFound iff the id resolves to no order,
leaving the collection unchanged; when the id resolves, the call succeeds for any status
string whatsoever, sets that order's status to the new value, and changes no other field
of that order and no other order. -/
theorem updateStatus_characterization (orders : List OrderDoc) (oid : Nat) (s : String) :
    ((∀ o ∈ orders, o.oid ≠ oid) →
      updateStatus orders oid s = (.error .orderNotFound, orders)) ∧
    (∀ pre o post, orders = pre ++ o :: post → (∀ p ∈ pre, p.oid ≠ oid) → o.oid = oid →
      updateStatus orders oid s =
        (.ok { o with status := s }, pre ++ { o with status := s } :: post)) := by
  constructor
  · intro h
    unfold updateStatus
    rw [findByIdAndUpdateStatus_none orders oid s h]
  · intro pre o post heq hpre ho
    subst heq
    unfold updateStatus
    rw [findByIdAndUpdateStatus_found pre o post oid s hpre ho]

theorem updateStatus_characterization_witness :
    updateStatus [pendingOrder] 0 "Shipped" =
      (.ok { pendingOrder with status := "Shipped" },
       [{ pendingOrder with status := "Shipped" }]) :=
  (updateStatus_characterization [pendingOrder] 0 "Shipped").2 [] pendingOrder []
    rfl (by simp) rfl

/-- C9 counterexample: the notifier is not asynchronous with respect to the caller's
response: the handler awaits sendOrderConfirmation before res.status(201), so in every
successful run with an email on file the notifier invocation (here a failing one)
completes strictly before the response event, as the event trace shows. -/
theorem placeOrder_notifier_blocks_response :
    (placeOrder demoSt 7 [⟨1, "Small", 2⟩] "addr" (some "user@example.com") false).events =
      [.orderSaved, .stockUpdated, .notifierInvoked false, .responseSent true] ∧
    (placeOrder demoSt 7 [⟨1, "Small", 2⟩] "addr" (some "user@example.com") false).response =
      .ok docC2 := by decide

/-- C9 amended: the notifier outcome is irrelevant to the call's outcome:
sendOrderConfirmation traps its own errors and returns a boolean, so the response and the
resulting database state are identical whether notification fails or succeeds; a notifier
failure neither fails the call nor rolls anything back. -/
theorem placeOrder_notifier_failure_harmless (st : St) (u : Nat) (ps : List OrderItemReq)
    (addr : String) (email : Option String) :
    (placeOrder st u ps addr email false).response =
      (placeOrder st u ps addr email true).response ∧
    (placeOrder st u ps addr email false).st = (placeOrder st u ps addr email true).st := by
  unfold placeOrder
  cases hv : validateItems st.catalog ps with
  | error e => exact ⟨rfl, rfl⟩
  | ok TL =>
    obtain ⟨T, L⟩ := TL
    by_cases ha : addr = ""
    · simp [ha]
    · simp [ha]

/-- C10: a line item with quantity q ≤ 0 whose product and size exist (with
non-negative stock) is not rejected: the availability check passes since stock < q is
false, the order is created containing that line item, the stock count changes by -q
(it increases when q < 0), and the sales counter changes by q (it decreases when
q < 0). -/
theorem placeOrder_nonpositive_quantity_accepted (st : St) (u : Nat) (pid : Nat)
    (s : String) (q : Int) (addr : String) (email : Option String) (nok : Bool)
    (p : Product) (sd : SizeEntry)
    (hp : st.catalog pid = some p) (hs : findSize p.sizes s = some sd)
    (hstock : 0 ≤ sd.stock) (hq : q ≤ 0) (ha : ¬ addr = "") :
    ((placeOrder st u [⟨pid, s, q⟩] addr email nok).response.map fun d => d.products) =
      .ok [⟨pid, q, none, none, none⟩] ∧
    stockOf (placeOrder st u [⟨pid, s, q⟩] addr email nok).st.catalog pid s =
      some (sd.stock - q) ∧
    salesCountOf (placeOrder st u [⟨pid, s, q⟩] addr email nok).st.catalog pid =
      some (p.salesCount + q) := by
  have hnlt : ¬ sd.stock < q := by omega
  have hv : validateItems st.catalog [⟨pid, s, q⟩] =
      .ok (0 + p.price * q, [⟨pid, p.name, s, q, p.price⟩]) := by
    simp [validateItems, validateLoop, hp, hs, hnlt]
  unfold placeOrder
  rw [hv]
  simp only [if_neg ha]
  have hok : (stockOf st.catalog pid s).isSome = true := by
    simp [stockOf, hp, hs]
  have hitEq : stockOf st.catalog pid s = some sd.stock := by
    simp [stockOf, hp, hs]
  refine ⟨by simp [orderSchemaCast, Except.map], ?_, ?_⟩
  · have hd := stockOf_applyDecrement_hit st.catalog ⟨pid, s, q⟩ hok
    simp only [applyDecrements, List.foldl_cons, List.foldl_nil]
    simp at hd
    rw [hd, hitEq]
    rfl
  · have hd := salesCountOf_applyDecrement_hit st.catalog ⟨pid, s, q⟩ hok
    simp only [applyDecrements, List.foldl_cons, List.foldl_nil]
    simp at hd
    rw [hd]
    simp [salesCountOf, hp]

theorem placeOrder_nonpositive_quantity_accepted_witness :
    ((placeOrder demoSt 7 [⟨1, "Small", -3⟩] "addr" none true).response.map
        fun d => d.products) = .ok [⟨1, -3, none, none, none⟩] ∧
    stockOf (placeOrder demoSt 7 [⟨1, "Small", -3⟩] "addr" none true).st.catalog 1 "Small" =
      some (3 - (-3)) ∧
    salesCountOf (placeOrder demoSt 7 [⟨1, "Small", -3⟩] "addr" none true).st.catalog 1 =
      some (10 + (-3)) :=
  placeOrder_nonpositive_quantity_accepted demoSt 7 1 "Small" (-3) "addr" none true
    tee2 ⟨"Small", 3⟩ (by decide) (by decide) (by decide) (by decide) (by decide)
